import Mathlib

/-!
The package `fileurl`: local paths and `file://` URLs.

A shallow embedding of the Go package `fileurl` (`src/fileurl.go`) and of the
part of the standard library it calls (`net/url.Parse`), followed by theorems
about `FromLocal`, `ToLocal` and `ToLocalSloppy`.

Conventions of the embedding:

* a Go `string` is a finite sequence of bytes, here a list of naturals (each
  byte a number below 256); `len`, indexing and slicing are by byte, as in Go;
* a Go run-time panic (index or slice out of range) is an explicit outcome,
  `Except.error`, so that "returns" and "panics" are told apart;
* a Go result pair `(value, error)` is a Lean pair whose second component is
  `none` for the `nil` error; a `nil` pointer is `none`.
-/

namespace Fileurl

/-! ## Strings -/

/-- A Go string: its bytes, in order. -/
abbrev GoString := List Nat

/-- The bytes of an ASCII literal of the source text. -/
def str (s : String) : GoString := s.toList.map Char.toNat

/-- The run-time panics of the Go code that the package can raise. -/
inductive Panic where
  | indexOutOfRange
  | sliceBoundsOutOfRange
  deriving DecidableEq, Repr

/-- A Go computation: it panics or it returns. -/
abbrev Run := Except Panic

/-- The Go expression `s[i]`: panics when `i` is not below `len(s)`. -/
def byteAt (s : GoString) (i : Nat) : Run Nat :=
  match s.get? i with
  | some b => .ok b
  | none => .error .indexOutOfRange

/-- The Go expression `s[:n]`: panics when `n` exceeds `len(s)`. -/
def sliceTo (s : GoString) (n : Nat) : Run GoString :=
  if n ≤ s.length then .ok (s.take n) else .error .sliceBoundsOutOfRange

/-- The Go expression `s[n:]`: panics when `n` exceeds `len(s)`. -/
def sliceFrom (s : GoString) (n : Nat) : Run GoString :=
  if n ≤ s.length then .ok (s.drop n) else .error .sliceBoundsOutOfRange

/-- Go's short-circuit `a && b`: `b` is evaluated only when `a` is true. -/
def gAnd (a b : Run Bool) : Run Bool :=
  a >>= fun x => if x then b else pure false

/-- Go's short-circuit `a || b`: `b` is evaluated only when `a` is false. -/
def gOr (a b : Run Bool) : Run Bool :=
  a >>= fun x => if x then pure true else b

/-- Go's `!a`. -/
def gNot (a : Run Bool) : Run Bool :=
  a >>= fun x => pure (!x)

/-! ## Errors and URLs -/

/-- The causes `net/url.Parse` reports inside its `*url.Error`. -/
inductive ParseFailure where
  | invalidControlCharacter
  | missingProtocolScheme
  | firstPathSegmentColon
  | escapeError (s : GoString)
  | invalidHostError (s : GoString)
  | missingBracket
  | invalidPort (s : GoString)
  | invalidUserinfo
  deriving DecidableEq, Repr

/-- The Go `error` values in play: the three sentinels of the package
(`ErrRelative`, `ErrRemote`, `ErrUnsupported`) and the `*url.Error` values
made by `net/url.Parse` (`Op`, `URL`, `Err`). -/
inductive GoError where
  | ErrRelative
  | ErrRemote
  | ErrUnsupported
  | urlError (op : GoString) (url : GoString) (cause : ParseFailure)
  deriving DecidableEq, Repr

/-- The `net/url.Userinfo` struct. -/
structure Userinfo where
  username : GoString
  password : GoString
  passwordSet : Bool
  deriving DecidableEq, Repr

/-- The fields of `net/url.URL` that the package reads (`Scheme`, `User`,
`Host`, `Path`, `RawQuery`, `Fragment`). The remaining fields of the Go struct
(`Opaque`, `RawPath`, `ForceQuery`) are read by no function of the package and
are left out. `User` is a pointer in Go: `none` is `nil`. -/
structure URL where
  Scheme : GoString
  User : Option Userinfo
  Host : GoString
  Path : GoString
  RawQuery : GoString
  Fragment : GoString
  deriving DecidableEq, Repr

/-- The zero value of the struct: what `new(URL)` gives. -/
def URL.zero : URL :=
  { Scheme := [], User := none, Host := [], Path := [], RawQuery := [], Fragment := [] }

/-! ## The standard library: `net/url.Parse`

`FromLocal` ends in a call of `net/url.Parse`, which belongs to the Go
standard library and not to the package. It is transcribed here from the
library source of the Go releases current when the package was written
(Go 1.12, 2019), for the fields of `URL` kept above. The library functions
keep their Go names. -/

/-- The `encoding` modes of `net/url` (`encodePath = 1 + iota`, ...). -/
inductive encoding where
  | encodePath
  | encodePathSegment
  | encodeHost
  | encodeZone
  | encodeUserPassword
  | encodeQueryComponent
  | encodeFragment
  deriving DecidableEq, Repr

/-- An ASCII letter, `'a' <= c && c <= 'z' || 'A' <= c && c <= 'Z'`. -/
def isAlpha (c : Nat) : Bool := (97 ≤ c && c ≤ 122) || (65 ≤ c && c ≤ 90)

/-- An ASCII digit, `'0' <= c && c <= '9'`. -/
def isDigit (c : Nat) : Bool := 48 ≤ c && c ≤ 57

/-- The library's `ishex`. -/
def ishex (c : Nat) : Bool :=
  (48 ≤ c && c ≤ 57) || (97 ≤ c && c ≤ 102) || (65 ≤ c && c ≤ 70)

/-- The library's `unhex`. -/
def unhex (c : Nat) : Nat :=
  if 48 ≤ c ∧ c ≤ 57 then c - 48
  else if 97 ≤ c ∧ c ≤ 102 then c - 97 + 10
  else if 65 ≤ c ∧ c ≤ 70 then c - 65 + 10
  else 0

/-- The library's `shouldEscape(c, encodeHost)`, the only mode in which
`Parse` consults it: letters and digits, the sub-delimiters
`! $ & ' ( ) * + , ; = : [ ] < > "` and the marks `- _ . ~` pass, every other
byte must be escaped. -/
def shouldEscapeHost (c : Nat) : Bool :=
  if isAlpha c || isDigit c then false
  else if c ∈ [33, 36, 38, 39, 40, 41, 42, 43, 44, 59, 61, 58, 91, 93, 60, 62, 34] then false
  else if c ∈ [45, 95, 46, 126] then false
  else true

/-- The library's `stringContainsCTLByte`: a byte below 0x20 or equal to 0x7f. -/
def stringContainsCTLByte (s : GoString) : Bool :=
  s.any fun b => b < 32 || b == 127

/-- The library's `strings.HasPrefix`. -/
def startsWith (s pre : GoString) : Bool := pre.isPrefixOf s

/-- The library's `strings.Cut` (`split(s, sep, true)` in older releases) for a
one-byte separator: the text before the first `sep` and the text after it;
all of `s` and the empty string when `sep` does not occur. -/
def cut (s : GoString) (sep : Nat) : GoString × GoString :=
  (s.takeWhile (fun b => b != sep), (s.dropWhile (fun b => b != sep)).drop 1)

/-- The library's `strings.LastIndex` for a one-byte separator, `none` for -1. -/
def lastIndex (s : GoString) (sep : Nat) : Option Nat :=
  match s.reverse.indexOf? sep with
  | some k => some (s.length - 1 - k)
  | none => none

/-- The library's `strings.Index(s, "%25")`, `none` for -1. -/
def indexPercent25 : GoString → Option Nat
  | [] => none
  | c :: cs =>
    if startsWith (c :: cs) [37, 50, 53] then some 0
    else (indexPercent25 cs).map (· + 1)

/-- The library's `strings.ToLower` on the bytes of a scheme (ASCII). -/
def toLower (s : GoString) : GoString :=
  s.map fun c => if 65 ≤ c ∧ c ≤ 90 then c + 32 else c

/-- The loop of the library's `getScheme`, at index `i` with `cs = rawURL[i:]`:
the scheme and the text after its colon, or no scheme and all of `rawURL`. -/
def getSchemeLoop (rawURL : GoString) : Nat → GoString → Except ParseFailure (GoString × GoString)
  | _, [] => .ok ([], rawURL)
  | i, c :: cs =>
    if isAlpha c then getSchemeLoop rawURL (i + 1) cs
    else if isDigit c || c == 43 || c == 45 || c == 46 then
      if i = 0 then .ok ([], rawURL) else getSchemeLoop rawURL (i + 1) cs
    else if c = 58 then
      if i = 0 then .error .missingProtocolScheme
      else .ok (rawURL.take i, rawURL.drop (i + 1))
    else .ok ([], rawURL)

/-- The library's `getScheme`. -/
def getScheme (rawURL : GoString) : Except ParseFailure (GoString × GoString) :=
  getSchemeLoop rawURL 0 rawURL

/-- The first loop of the library's `unescape`: every `%` is followed by two
hexadecimal digits, and in the host modes the restrictions on what may be
escaped and on which bytes may stand unescaped hold. -/
def unescapeCheck (mode : encoding) : GoString → Except ParseFailure Unit
  | [] => .ok ()
  | c :: rest =>
    if c = 37 then
      match rest with
      | a :: b :: rest2 =>
        if ishex a && ishex b then
          if mode = .encodeHost ∧ unhex a < 8 ∧ [c, a, b] ≠ [37, 50, 53] then
            .error (.escapeError [c, a, b])
          else if mode = .encodeZone ∧ [c, a, b] ≠ [37, 50, 53] ∧ unhex a * 16 + unhex b ≠ 32
              ∧ shouldEscapeHost (unhex a * 16 + unhex b) then
            .error (.escapeError [c, a, b])
          else unescapeCheck mode rest2
        else .error (.escapeError ((c :: rest).take 3))
      | _ => .error (.escapeError ((c :: rest).take 3))
    else if (mode = .encodeHost ∨ mode = .encodeZone) ∧ c < 128 ∧ shouldEscapeHost c then
      .error (.invalidHostError [c])
    else unescapeCheck mode rest

/-- The second loop of the library's `unescape`: each `%XY` becomes the byte
`unhex(X)<<4 | unhex(Y)`; in the query-component mode `+` becomes a space. -/
def unescapeDecode (mode : encoding) : GoString → GoString
  | [] => []
  | c :: rest =>
    if c = 37 then
      match rest with
      | a :: b :: rest2 => (unhex a * 16 + unhex b) :: unescapeDecode mode rest2
      | _ => []
    else if c = 43 ∧ mode = .encodeQueryComponent then 32 :: unescapeDecode mode rest
    else c :: unescapeDecode mode rest

/-- The library's `unescape`: the string itself when it holds no `%` (and no
`+` in the query-component mode), its decoding otherwise. -/
def unescape (s : GoString) (mode : encoding) : Except ParseFailure GoString :=
  match unescapeCheck mode s with
  | .error e => .error e
  | .ok _ =>
    if s.count 37 = 0 ∧ ¬ (mode = .encodeQueryComponent ∧ 43 ∈ s) then .ok s
    else .ok (unescapeDecode mode s)

/-- The library's `validOptionalPort`: empty, or a colon followed by digits. -/
def validOptionalPort (port : GoString) : Bool :=
  match port with
  | [] => true
  | c :: rest => c == 58 && rest.all isDigit

/-- The library's `parseHost`. -/
def parseHost (host : GoString) : Except ParseFailure GoString :=
  if startsWith host [91] then
    match lastIndex host 93 with
    | none => .error .missingBracket
    | some i =>
      if !validOptionalPort (host.drop (i + 1)) then .error (.invalidPort (host.drop (i + 1)))
      else
        match indexPercent25 (host.take i) with
        | some zone =>
          match unescape (host.take zone) .encodeHost with
          | .error e => .error e
          | .ok host1 =>
            match unescape ((host.take i).drop zone) .encodeZone with
            | .error e => .error e
            | .ok host2 =>
              match unescape (host.drop i) .encodeHost with
              | .error e => .error e
              | .ok host3 => .ok (host1 ++ host2 ++ host3)
        | none => unescape host .encodeHost
  else
    match lastIndex host 58 with
    | some i =>
      if !validOptionalPort (host.drop i) then .error (.invalidPort (host.drop i))
      else unescape host .encodeHost
    | none => unescape host .encodeHost

/-- The library's `validUserinfo`: letters, digits and
`- . _ : ~ ! $ & ' ( ) * + , ; = % @` only. -/
def validUserinfo (s : GoString) : Bool :=
  s.all fun r => isAlpha r || isDigit r
    || decide (r ∈ [45, 46, 95, 58, 126, 33, 36, 38, 39, 40, 41, 42, 43, 44, 59, 61, 37, 64])

/-- The library's `parseAuthority`: the user information (a `nil` pointer when
the authority has no `@`) and the host. -/
def parseAuthority (authority : GoString) : Except ParseFailure (Option Userinfo × GoString) :=
  match lastIndex authority 64 with
  | none =>
    match parseHost authority with
    | .error e => .error e
    | .ok host => .ok (none, host)
  | some i =>
    match parseHost (authority.drop (i + 1)) with
    | .error e => .error e
    | .ok host =>
      let userinfo := authority.take i
      if !validUserinfo userinfo then .error .invalidUserinfo
      else if 58 ∉ userinfo then
        match unescape userinfo .encodeUserPassword with
        | .error e => .error e
        | .ok name => .ok (some { username := name, password := [], passwordSet := false }, host)
      else
        match unescape (cut userinfo 58).1 .encodeUserPassword with
        | .error e => .error e
        | .ok name =>
          match unescape (cut userinfo 58).2 .encodeUserPassword with
          | .error e => .error e
          | .ok pass => .ok (some { username := name, password := pass, passwordSet := true }, host)

/-- The library's `URL.setPath`, for the `Path` field: the unescaped text. -/
def setPath (url : URL) (p : GoString) : Except ParseFailure URL :=
  match unescape p .encodePath with
  | .error e => .error e
  | .ok path => .ok { url with Path := path }

/-- The library's `parse(rawURL, viaRequest)` with `viaRequest = false`, as
`Parse` calls it: control bytes are refused, the scheme is split off and
lower-cased, the query is cut at the first `?`, a rootless rest after a scheme
is opaque, an authority after `//` gives user and host, and what remains is
the path. -/
def parse (rawURL : GoString) : Except ParseFailure URL :=
  if stringContainsCTLByte rawURL then .error .invalidControlCharacter
  else if rawURL = str "*" then .ok { URL.zero with Path := str "*" }
  else
    match getScheme rawURL with
    | .error e => .error e
    | .ok (scheme, afterScheme) =>
      let split : GoString × GoString :=
        if afterScheme.getLast? = some 63 ∧ afterScheme.count 63 = 1
        then (afterScheme.dropLast, [])
        else cut afterScheme 63
      let rest := split.1
      let url : URL := { URL.zero with Scheme := toLower scheme, RawQuery := split.2 }
      if !startsWith rest (str "/") ∧ url.Scheme ≠ [] then .ok url
      else if !startsWith rest (str "/") ∧ 58 ∈ (cut rest 47).1 then
        .error .firstPathSegmentColon
      else if (url.Scheme ≠ [] ∨ !startsWith rest (str "///")) ∧ startsWith rest (str "//") then
        let authority := (rest.drop 2).takeWhile (fun b => b != 47)
        match parseAuthority authority with
        | .error e => .error e
        | .ok (user, host) =>
          setPath { url with User := user, Host := host } ((rest.drop 2).dropWhile (fun b => b != 47))
      else setPath url rest

/-- The library's `Parse`: the fragment is cut off at the first `#`, the rest
goes to `parse`, and a non-empty fragment is unescaped into `Fragment`. Every
failure comes back as a `*url.Error` with operation `parse`, next to a `nil`
URL. -/
def Parse (rawURL : GoString) : Option URL × Option GoError :=
  match parse (cut rawURL 35).1 with
  | .error e => (none, some (.urlError (str "parse") (cut rawURL 35).1 e))
  | .ok url =>
    if (cut rawURL 35).2 = [] then (some url, none)
    else
      match unescape (cut rawURL 35).2 .encodeFragment with
      | .error e => (none, some (.urlError (str "parse") rawURL e))
      | .ok frag => (some { url with Fragment := frag }, none)

/-! ## The package: `src/fileurl.go` -/

/-- The package's `isDriveLetter`: an ASCII letter. -/
def isDriveLetter (c : Nat) : Bool := (65 ≤ c && c ≤ 90) || (97 ≤ c && c ≤ 122)

/-- The package's `FromLocal`. The slice `path[:2]` and the index `path[0]`
are evaluated unguarded, as in the source; the drive-letter condition is the
source's short-circuit chain
`len(path) >= 2 && path[1] == ':' && ((path[0] >= 'A' && path[0] <= 'Z') || (path[0] >= 'a' && path[0] <= 'z'))`. -/
def FromLocal (path : GoString) : Run (Option URL × Option GoError) :=
  sliceTo path 2 >>= fun head =>
  if head = str "//" then pure (none, some .ErrRemote)
  else
    byteAt path 0 >>= fun first =>
    if first ≠ 47 then
      gAnd (pure (decide (path.length ≥ 2)))
        (gAnd (byteAt path 1 >>= fun c => pure (c == 58))
          (gOr
            (gAnd (byteAt path 0 >>= fun c => pure (decide (c ≥ 65)))
                  (byteAt path 0 >>= fun c => pure (decide (c ≤ 90))))
            (gAnd (byteAt path 0 >>= fun c => pure (decide (c ≥ 97)))
                  (byteAt path 0 >>= fun c => pure (decide (c ≤ 122)))))) >>= fun drive =>
      if drive then pure (Parse (str "file://" ++ (str "/" ++ path)))
      else pure (none, some .ErrRelative)
    else pure (Parse (str "file://" ++ path))

/-- The package's `ToLocalSloppy`, for a non-nil `u`. `finish` is the code
after the host block (the slash-stripping `if` and the `return p, nil`),
applied to the value `p` has at that point. -/
def ToLocalSloppy (u : URL) : Run (GoString × Option GoError) :=
  let finish : GoString → Run (GoString × Option GoError) := fun p =>
    gAnd (pure (decide (p.length ≥ 3)))
      (gAnd (byteAt p 0 >>= fun c => pure (c == 47))
        (gAnd (byteAt p 2 >>= fun c => pure (c == 58))
          (byteAt p 1 >>= fun c => pure (isDriveLetter c)))) >>= fun strip =>
    if strip then sliceFrom p 1 >>= fun q => pure (q, none)
    else pure (p, none)
  if u.Scheme ≠ str "file" ∨ u.RawQuery ≠ [] ∨ u.Fragment ≠ [] ∨ u.User ≠ none ∨ u.Path = [] then
    pure ([], some .ErrUnsupported)
  else if u.Host.length ≠ 0 then
    gOr (pure (decide (u.Host.length ≠ 2)))
      (gOr (byteAt u.Host 1 >>= fun c => pure (c != 58))
        (gNot (byteAt u.Host 0 >>= fun c => pure (isDriveLetter c)))) >>= fun remote =>
    if remote then pure ([], some .ErrRemote)
    else finish (str "/" ++ u.Host ++ u.Path)
  else finish u.Path

/-- The package's `ToLocal`, for a non-nil `u`. -/
def ToLocal (u : URL) : Run (GoString × Option GoError) :=
  if u.Host ≠ [] then pure ([], some .ErrRemote)
  else ToLocalSloppy u

/-! ## Vocabulary of the statements -/

/-- The slash-prefixed drive form `/X:...`: at least three bytes, a slash, an
ASCII letter, a colon. -/
def slashDriveForm (p : GoString) : Prop :=
  3 ≤ p.length ∧ p.get? 0 = some 47 ∧ (∃ c, p.get? 1 = some c ∧ isDriveLetter c = true)
    ∧ p.get? 2 = some 58

/-- The drive-letter form `X:...`: an ASCII letter (A-Z or a-z), then a colon. -/
def driveForm (p : GoString) : Prop :=
  (∃ c, p.get? 0 = some c ∧ ((65 ≤ c ∧ c ≤ 90) ∨ (97 ≤ c ∧ c ≤ 122))) ∧ p.get? 1 = some 58

/-- A host that is exactly a drive letter and a colon. -/
def driveHost (h : GoString) : Prop :=
  h.length = 2 ∧ (∃ c, h.get? 0 = some c ∧ isDriveLetter c = true) ∧ h.get? 1 = some 58

/-- The URLs that pass the first check of `ToLocalSloppy`: scheme `file`, no
query, no fragment, no user information, a non-empty path. -/
def supported (u : URL) : Prop :=
  u.Scheme = str "file" ∧ u.RawQuery = [] ∧ u.Fragment = [] ∧ u.User = none ∧ u.Path ≠ []

/-- A path without the bytes `net/url.Parse` gives a meaning to or refuses:
no `#`, no `?`, no `%`, no control byte (below 0x20, or 0x7f). -/
def plainPath (p : GoString) : Prop :=
  ∀ b ∈ p, b ≠ 35 ∧ b ≠ 63 ∧ b ≠ 37 ∧ 32 ≤ b ∧ b ≠ 127

/-- The URL `file://` + `path` with nothing but scheme and path. -/
def fileURL (path : GoString) : URL :=
  { Scheme := str "file", User := none, Host := [], Path := path, RawQuery := [], Fragment := [] }

instance slashDriveFormDecidable (p : GoString) : Decidable (slashDriveForm p) :=
  inferInstanceAs (Decidable (3 ≤ p.length ∧ p.get? 0 = some 47
    ∧ (∃ c, p.get? 1 = some c ∧ isDriveLetter c = true) ∧ p.get? 2 = some 58))

instance plainPathDecidable (p : GoString) : Decidable (plainPath p) :=
  inferInstanceAs (Decidable (∀ b ∈ p, b ≠ 35 ∧ b ≠ 63 ∧ b ≠ 37 ∧ 32 ≤ b ∧ b ≠ 127))

instance driveHostDecidable (h : GoString) : Decidable (driveHost h) :=
  inferInstanceAs (Decidable (h.length = 2 ∧ (∃ c, h.get? 0 = some c ∧ isDriveLetter c = true)
    ∧ h.get? 1 = some 58))

instance supportedDecidable (u : URL) : Decidable (supported u) :=
  inferInstanceAs (Decidable (u.Scheme = str "file" ∧ u.RawQuery = [] ∧ u.Fragment = []
    ∧ u.User = none ∧ u.Path ≠ []))

/-- What `ToLocalSloppy` leaves of `p` after its last `if`: the path without
its first byte when it has the slash-prefixed drive form, the path itself
otherwise. -/
def stripped (p : GoString) : GoString :=
  if slashDriveForm p then p.drop 1 else p

/-! ## Lemmas on the library model -/

/-- Cutting at a byte that does not occur leaves the string whole. -/
theorem cut_of_not_mem (s : GoString) (sep : Nat) (h : sep ∉ s) : cut s sep = (s, []) := by
  have hall : ∀ b ∈ s, (b != sep) = true := by
    intro b hb
    have : b ≠ sep := fun e => h (e ▸ hb)
    simpa using this
  have h1 : s.takeWhile (fun b => b != sep) = s := List.takeWhile_eq_self_iff.mpr hall
  have h2 : s.dropWhile (fun b => b != sep) = [] := List.dropWhile_eq_nil_iff.mpr hall
  simp [cut, h1, h2]

/-- A path without `%` passes the first loop of `unescape` in the path mode. -/
theorem unescapeCheck_path_of_no_percent (s : GoString) (h : 37 ∉ s) :
    unescapeCheck .encodePath s = .ok () := by
  induction s with
  | nil => rfl
  | cons c rest ih =>
    have hc : c ≠ 37 := fun e => h (by simp [e])
    have hr : 37 ∉ rest := fun e => h (by simp [e])
    unfold unescapeCheck
    simp [hc, ih hr]

/-- A path without `%` is its own unescaping. -/
theorem unescape_path_of_no_percent (s : GoString) (h : 37 ∉ s) :
    unescape s .encodePath = .ok s := by
  have hcount : s.count 37 = 0 := List.count_eq_zero.mpr h
  simp [unescape, unescapeCheck_path_of_no_percent s h, hcount]

/-- `Parse` returns a URL and no error, or no URL and a `*url.Error` of
operation `parse`; never one of the package's sentinels. -/
theorem Parse_result (s : GoString) :
    (∃ u, Parse s = (some u, none))
      ∨ (∃ r c, Parse s = (none, some (.urlError (str "parse") r c))) := by
  unfold Parse
  split
  · exact Or.inr ⟨_, _, rfl⟩
  · split
    · exact Or.inl ⟨_, rfl⟩
    · split
      · exact Or.inr ⟨_, _, rfl⟩
      · exact Or.inl ⟨_, rfl⟩

/-- On `file://` followed by a path that begins with a slash and holds no
`#`, `?`, `%` or control byte, `Parse` returns the URL with scheme `file`, no
user, no host, no query, no fragment, and that path. -/
theorem Parse_file_plain (t : GoString) (h : plainPath (47 :: t)) :
    Parse (str "file://" ++ (47 :: t)) = (some (fileURL (47 :: t)), none) := by
  have ht : ∀ b ∈ t, b ≠ 35 ∧ b ≠ 63 ∧ b ≠ 37 ∧ 32 ≤ b ∧ b ≠ 127 :=
    fun b hb => h b (List.mem_cons_of_mem _ hb)
  have h35 : (35 : Nat) ∉ t := fun hm => (ht 35 hm).1 rfl
  have h63 : (63 : Nat) ∉ t := fun hm => (ht 63 hm).2.1 rfl
  have h37 : (37 : Nat) ∉ t := fun hm => (ht 37 hm).2.2.1 rfl
  have hctl : stringContainsCTLByte t = false := by
    simp only [stringContainsCTLByte, List.any_eq_false]
    intro b hb
    have := ht b hb
    simp
    omega
  have hcut35 : cut (str "file://" ++ (47 :: t)) 35 = (str "file://" ++ (47 :: t), []) := by
    apply cut_of_not_mem
    simp [str, h35]
  have hcut63 : cut (47 :: 47 :: 47 :: t) 63 = (47 :: 47 :: 47 :: t, []) := by
    apply cut_of_not_mem
    simp [h63]
  have hcount : List.count 63 (47 :: 47 :: 47 :: t) = 0 := by
    apply List.count_eq_zero.mpr
    simp [h63]
  have hun : unescape (47 :: t) .encodePath = .ok (47 :: t) := by
    apply unescape_path_of_no_percent
    simp [h37]
  have hparse : parse (str "file://" ++ (47 :: t)) = .ok (fileURL (47 :: t)) := by
    have hctl2 : stringContainsCTLByte (str "file://" ++ (47 :: t)) = false := by
      simp only [stringContainsCTLByte] at hctl ⊢
      simp [str, hctl]
    unfold parse
    rw [hctl2]
    have hauth : parseAuthority [] = .ok (none, []) := by rfl
    simp [str, getScheme, getSchemeLoop, isAlpha, isDigit, hcut63, hcount, startsWith, toLower,
      URL.zero, hauth, setPath, hun, fileURL]
  unfold Parse
  rw [hcut35]
  simp [hparse]

/-! ## Lemmas on the package code -/

theorem supported_iff (u : URL) :
    supported u ↔ ¬ (u.Scheme ≠ str "file" ∨ u.RawQuery ≠ [] ∨ u.Fragment ≠ [] ∨ u.User ≠ none
      ∨ u.Path = []) := by
  unfold supported
  tauto

/-- The slash-stripping condition of `ToLocalSloppy` never panics and holds
exactly on the slash-prefixed drive form. -/
theorem strip_condition (p : GoString) :
    ∃ b : Bool,
      (gAnd (pure (decide (p.length ≥ 3)))
        (gAnd (byteAt p 0 >>= fun c => pure (c == 47))
          (gAnd (byteAt p 2 >>= fun c => pure (c == 58))
            (byteAt p 1 >>= fun c => pure (isDriveLetter c)))) : Run Bool) = .ok b
      ∧ (b = true ↔ slashDriveForm p) := by
  match p with
  | [] => exact ⟨false, by simp [gAnd, bind, Except.bind, pure, Except.pure], by simp [slashDriveForm]⟩
  | [_] => exact ⟨false, by simp [gAnd, bind, Except.bind, pure, Except.pure], by simp [slashDriveForm]⟩
  | [_, _] => exact ⟨false, by simp [gAnd, bind, Except.bind, pure, Except.pure], by simp [slashDriveForm]⟩
  | a :: b :: c :: t =>
    refine ⟨(a == 47) && ((c == 58) && isDriveLetter b), ?_, ?_⟩
    · by_cases ha : a = 47 <;> by_cases hc : c = 58 <;>
        simp [gAnd, byteAt, bind, Except.bind, pure, Except.pure, ha, hc]
    · simp [slashDriveForm]
      tauto

/-- What the code after the host block does with the value of `p`. -/
theorem finish_eq (p : GoString) :
    (gAnd (pure (decide (p.length ≥ 3)))
        (gAnd (byteAt p 0 >>= fun c => pure (c == 47))
          (gAnd (byteAt p 2 >>= fun c => pure (c == 58))
            (byteAt p 1 >>= fun c => pure (isDriveLetter c)))) >>= fun strip =>
      if strip then sliceFrom p 1 >>= fun q => pure (q, (none : Option GoError))
      else pure (p, none) : Run (GoString × Option GoError))
    = .ok (stripped p, none) := by
  unfold stripped
  obtain ⟨b, hb, hiff⟩ := strip_condition p
  rw [hb]
  cases b with
  | false =>
    have : ¬ slashDriveForm p := fun h => by simpa using hiff.mpr h
    simp [bind, Except.bind, pure, Except.pure, this]
  | true =>
    have h : slashDriveForm p := hiff.mp rfl
    have hlen : 1 ≤ p.length := by
      have := h.1
      omega
    simp [bind, Except.bind, pure, Except.pure, h, sliceFrom, hlen]

/-- The host condition of `ToLocalSloppy` never panics and holds exactly when
the host is not a drive letter and a colon. -/
theorem host_condition (h : GoString) :
    ∃ b : Bool,
      (gOr (pure (decide (h.length ≠ 2)))
        (gOr (byteAt h 1 >>= fun c => pure (c != 58))
          (gNot (byteAt h 0 >>= fun c => pure (isDriveLetter c)))) : Run Bool) = .ok b
      ∧ (b = true ↔ ¬ driveHost h) := by
  match h with
  | [] => exact ⟨true, by simp [gOr, bind, Except.bind, pure, Except.pure], by simp [driveHost]⟩
  | [_] => exact ⟨true, by simp [gOr, bind, Except.bind, pure, Except.pure], by simp [driveHost]⟩
  | _ :: _ :: _ :: _ =>
    exact ⟨true, by simp [gOr, bind, Except.bind, pure, Except.pure], by simp [driveHost]⟩
  | [a, c] =>
    refine ⟨(c != 58) || !isDriveLetter a, ?_, ?_⟩
    · by_cases hc : c = 58 <;>
        simp [gOr, gNot, byteAt, bind, Except.bind, pure, Except.pure, hc]
    · cases hd : isDriveLetter a <;> by_cases hc : c = 58 <;> simp [driveHost, hd, hc]

/-- The whole of `ToLocalSloppy` in one equation: it never panics, and its
result is decided by the first check, the host and the shape of the path. -/
theorem ToLocalSloppy_eq (u : URL) :
    ToLocalSloppy u = .ok
      (if ¬ supported u then ([], some .ErrUnsupported)
       else if u.Host = [] then (stripped u.Path, none)
       else if driveHost u.Host then (stripped (str "/" ++ u.Host ++ u.Path), none)
       else ([], some .ErrRemote)) := by
  unfold ToLocalSloppy
  simp only [finish_eq]
  by_cases hs : supported u
  · have hs2 := (supported_iff u).mp hs
    rw [if_neg hs2]
    by_cases hh : u.Host = []
    · simp [hs, hh]
    · have hlen : u.Host.length ≠ 0 := by simpa using hh
      obtain ⟨b, hb, hiff⟩ := host_condition u.Host
      rw [if_pos hlen, hb]
      cases b with
      | true =>
        have : ¬ driveHost u.Host := hiff.mp rfl
        simp [bind, Except.bind, pure, Except.pure, hs, hh, this]
      | false =>
        have : driveHost u.Host := by
          by_contra hd
          simpa using hiff.mpr hd
        simp [bind, Except.bind, pure, Except.pure, hs, hh, this]
  · have hs2 : (u.Scheme ≠ str "file" ∨ u.RawQuery ≠ [] ∨ u.Fragment ≠ [] ∨ u.User ≠ none
        ∨ u.Path = []) := by
      by_contra hc
      exact hs ((supported_iff u).mpr hc)
    rw [if_pos hs2]
    simp [hs, pure, Except.pure]

/-- The whole of `ToLocal` in one equation. -/
theorem ToLocal_eq (u : URL) :
    ToLocal u = .ok
      (if u.Host ≠ [] then ([], some .ErrRemote)
       else if ¬ supported u then ([], some .ErrUnsupported)
       else (stripped u.Path, none)) := by
  unfold ToLocal
  by_cases hh : u.Host = []
  · rw [if_neg (by simpa using hh), ToLocalSloppy_eq]
    simp [hh]
  · rw [if_pos hh]
    simp [hh, pure, Except.pure]

/-- `FromLocal` panics on every path shorter than two bytes: the slice
`path[:2]` is out of range. -/
theorem FromLocal_short (path : GoString) (h : path.length < 2) :
    FromLocal path = .error .sliceBoundsOutOfRange := by
  unfold FromLocal
  have : ¬ 2 ≤ path.length := by omega
  simp [sliceTo, this, bind, Except.bind]

/-- The whole of `FromLocal` on a path of at least two bytes, in one equation:
it does not panic, and the first two bytes decide between `ErrRemote`,
`ErrRelative` and the call of `Parse`. -/
theorem FromLocal_eq (a b : Nat) (t : GoString) :
    FromLocal (a :: b :: t) = .ok
      (if a = 47 ∧ b = 47 then (none, some .ErrRemote)
       else if a = 47 then Parse (str "file://" ++ (a :: b :: t))
       else if b = 58 ∧ ((65 ≤ a ∧ a ≤ 90) ∨ (97 ≤ a ∧ a ≤ 122)) then
         Parse (str "file://" ++ (str "/" ++ (a :: b :: t)))
       else (none, some .ErrRelative)) := by
  unfold FromLocal
  by_cases ha : a = 47
  · by_cases hb : b = 47
    · simp [sliceTo, str, ha, hb, bind, Except.bind, pure, Except.pure]
    · simp [sliceTo, byteAt, str, ha, hb, bind, Except.bind, pure, Except.pure]
  · by_cases hb : b = 58
    · by_cases h1 : 65 ≤ a <;> by_cases h2 : a ≤ 90 <;> by_cases h3 : 97 ≤ a <;>
        by_cases h4 : a ≤ 122 <;>
        simp [sliceTo, byteAt, gAnd, gOr, str, ha, hb, h1, h2, h3, h4, bind, Except.bind, pure,
          Except.pure]
    · simp [sliceTo, byteAt, gAnd, gOr, str, ha, hb, bind, Except.bind, pure, Except.pure]

/-- Every error `FromLocal` returns is `ErrRelative`, `ErrRemote`, or the
`*url.Error` of operation `parse` that `Parse` returned. -/
theorem FromLocal_error_kinds (path : GoString) (v : Option URL) (e : GoError)
    (h : FromLocal path = .ok (v, some e)) :
    e = .ErrRelative ∨ e = .ErrRemote ∨ ∃ r c, e = .urlError (str "parse") r c := by
  match path, h with
  | [], h =>
    rw [FromLocal_short [] (by simp)] at h
    cases h
  | [a], h =>
    rw [FromLocal_short [a] (by simp)] at h
    cases h
  | a :: b :: t, h =>
    rw [FromLocal_eq] at h
    have hparse : ∀ s, Parse s = (v, some e) → ∃ r c, e = .urlError (str "parse") r c := by
      intro s hs
      rcases Parse_result s with ⟨w, hw⟩ | ⟨r, c, hw⟩
      · rw [hw] at hs
        simp at hs
      · rw [hw] at hs
        simp only [Prod.mk.injEq, Option.some.injEq] at hs
        exact ⟨r, c, hs.2.symm⟩
    split at h
    · simp only [Except.ok.injEq, Prod.mk.injEq, Option.some.injEq] at h
      exact Or.inr (Or.inl h.2.symm)
    · split at h
      · exact Or.inr (Or.inr (hparse _ (Except.ok.inj h)))
      · split at h
        · exact Or.inr (Or.inr (hparse _ (Except.ok.inj h)))
        · simp only [Except.ok.injEq, Prod.mk.injEq, Option.some.injEq] at h
          exact Or.inl h.2.symm

/-- The drive-letter form, read off the first two bytes. -/
theorem driveForm_cons (a b : Nat) (t : GoString) :
    driveForm (a :: b :: t) ↔ (b = 58 ∧ ((65 ≤ a ∧ a ≤ 90) ∨ (97 ≤ a ∧ a ≤ 122))) := by
  simp [driveForm]
  tauto

/-- On a path that begins with one slash only and holds no `#`, `?`, `%` or
control byte, `FromLocal` returns the URL `file://` + path: scheme `file`,
empty host, the path itself. -/
theorem FromLocal_plain_posix (b : Nat) (t : GoString) (hb : b ≠ 47)
    (hplain : plainPath (47 :: b :: t)) :
    FromLocal (47 :: b :: t) = .ok (some (fileURL (47 :: b :: t)), none) := by
  rw [FromLocal_eq, Parse_file_plain (b :: t) hplain]
  simp [hb]

/-- On a drive-letter path that holds no `#`, `?`, `%` or control byte,
`FromLocal` returns the URL `file:///` + path: scheme `file`, empty host, a
slash followed by the path. -/
theorem FromLocal_plain_drive (p : GoString) (hd : driveForm p) (hplain : plainPath p) :
    FromLocal p = .ok (some (fileURL (47 :: p)), none) := by
  match p, hd, hplain with
  | [], hd, _ => simp [driveForm] at hd
  | [_], hd, _ => simp [driveForm] at hd
  | a :: b :: t, hd, hplain =>
    have hd2 := (driveForm_cons a b t).mp hd
    have ha : a ≠ 47 := by omega
    have hp : plainPath (47 :: a :: b :: t) := by
      intro x hx
      rcases List.mem_cons.mp hx with rfl | hx
      · decide
      · exact hplain x hx
    have hparse : Parse (str "file://" ++ (str "/" ++ (a :: b :: t)))
        = (some (fileURL (47 :: a :: b :: t)), none) := Parse_file_plain (a :: b :: t) hp
    rw [FromLocal_eq, hparse]
    simp [ha, hd2]

/-- Round trip of a drive-letter path that holds no `#`, `?`, `%` or control
byte: `FromLocal` succeeds and `ToLocal` gives the path back. -/
theorem FromLocal_ToLocal_plain_drive (p : GoString) (hd : driveForm p) (hplain : plainPath p) :
    ∃ u, FromLocal p = .ok (some u, none) ∧ ToLocal u = .ok (p, none) := by
  refine ⟨fileURL (47 :: p), FromLocal_plain_drive p hd hplain, ?_⟩
  match p, hd with
  | [], hd => simp [driveForm] at hd
  | [_], hd => simp [driveForm] at hd
  | a :: b :: t, hd =>
    have hd2 := (driveForm_cons a b t).mp hd
    have hl : isDriveLetter a = true := by
      simp only [isDriveLetter, Bool.or_eq_true, Bool.and_eq_true, decide_eq_true_eq]
      exact hd2.2
    have hform : slashDriveForm (47 :: a :: b :: t) := by
      simp [slashDriveForm, hl, hd2.1]
    have hsup : supported (fileURL (47 :: a :: b :: t)) := by
      simp [supported, fileURL]
    have hhost : (fileURL (47 :: a :: b :: t)).Host = [] := rfl
    have hpath : (fileURL (47 :: a :: b :: t)).Path = 47 :: a :: b :: t := rfl
    rw [ToLocal_eq]
    simp [hsup, hhost, hpath, stripped, hform]

/-- The path `ToLocalSloppy` is left with is not empty when it started from a
non-empty one, and never has the slash-prefixed drive form. -/
theorem stripped_normal (q : GoString) (hq : q ≠ []) :
    stripped q ≠ [] ∧ ¬ slashDriveForm (stripped q) := by
  unfold stripped
  by_cases hform : slashDriveForm q
  · rw [if_pos hform]
    match q, hform with
    | a :: c :: d :: t, hform =>
      obtain ⟨_, _, ⟨x, hx, hl⟩, _⟩ := hform
      have hxc : c = x := by simpa using hx
      subst hxc
      refine ⟨by simp, ?_⟩
      rintro ⟨_, h0, _, _⟩
      have hc : c = 47 := by simpa using h0
      subst hc
      simp [isDriveLetter] at hl
  · rw [if_neg hform]
    exact ⟨hq, hform⟩

/-- Whenever `ToLocal` succeeds with a path, `ToLocalSloppy` succeeds with the
same path. -/
theorem ToLocalSloppy_of_ToLocal (u : URL) (p : GoString)
    (h : ToLocal u = .ok (p, none)) : ToLocalSloppy u = .ok (p, none) := by
  by_cases hh : u.Host = []
  · have : ToLocal u = ToLocalSloppy u := by
      unfold ToLocal
      simp [hh]
    rw [← this]
    exact h
  · rw [ToLocal_eq] at h
    simp [hh] at h

/-! ## Extraction: `ToLocal` and `ToLocalSloppy` -/

/-- C3: for every URL, `ToLocal` fails with `ErrRemote` exactly when the host
is non-empty, whatever the scheme, query, fragment, user information and path
are, and whatever the host holds. -/
theorem ToLocal_remote_iff_host (u : URL) :
    (∃ p, ToLocal u = .ok (p, some .ErrRemote)) ↔ u.Host ≠ [] := by
  rw [ToLocal_eq]
  by_cases hh : u.Host = []
  · by_cases hs : supported u <;> simp [hh, hs]
  · simp [hh]

/-- C4: for every URL, `ToLocalSloppy` fails with `ErrUnsupported` exactly when
the scheme is not `file`, or the query is non-empty, or the fragment is
non-empty, or user information is present, or the path is empty; the host
plays no part. -/
theorem ToLocalSloppy_unsupported_iff (u : URL) :
    (∃ p, ToLocalSloppy u = .ok (p, some .ErrUnsupported)) ↔
      (u.Scheme ≠ str "file" ∨ u.RawQuery ≠ [] ∨ u.Fragment ≠ [] ∨ u.User ≠ none
        ∨ u.Path = []) := by
  rw [ToLocalSloppy_eq]
  by_cases hs : supported u
  · have hn := (supported_iff u).mp hs
    by_cases hh : u.Host = []
    · simp [hs, hh, hn]
    · by_cases hd : driveHost u.Host <;> simp [hs, hh, hd, hn]
  · have hp : (u.Scheme ≠ str "file" ∨ u.RawQuery ≠ [] ∨ u.Fragment ≠ [] ∨ u.User ≠ none
        ∨ u.Path = []) := by
      by_contra hc
      exact hs ((supported_iff u).mpr hc)
    simp only [hs, not_false_eq_true, if_true]
    exact ⟨fun _ => hp, fun _ => ⟨[], rfl⟩⟩

/-- C5: for a URL with scheme `file`, no query, no fragment, no user
information, a non-empty path and a host of exactly two bytes, an ASCII letter
and a colon, `ToLocalSloppy` succeeds and returns the host followed by the
path, which does not begin with a slash. -/
theorem ToLocalSloppy_drive_host (u : URL) (hs : u.Scheme = str "file")
    (hq : u.RawQuery = []) (hf : u.Fragment = []) (hu : u.User = none) (hp : u.Path ≠ [])
    (hlen : u.Host.length = 2) (c : Nat) (h0 : u.Host.get? 0 = some c)
    (hc : (65 ≤ c ∧ c ≤ 90) ∨ (97 ≤ c ∧ c ≤ 122)) (h1 : u.Host.get? 1 = some 58) :
    ToLocalSloppy u = .ok (u.Host ++ u.Path, none) ∧ (u.Host ++ u.Path).head? ≠ some 47 := by
  have hsup : supported u := ⟨hs, hq, hf, hu, hp⟩
  have hletter : isDriveLetter c = true := by
    simp only [isDriveLetter, Bool.or_eq_true, Bool.and_eq_true, decide_eq_true_eq]
    exact hc
  have hd : driveHost u.Host := ⟨hlen, ⟨c, h0, hletter⟩, h1⟩
  match hH : u.Host, hlen, h0, h1 with
  | [a, b], _, h0, h1 =>
    have ha : a = c := by simpa using h0
    have hb : b = 58 := by simpa using h1
    subst ha hb
    have hne : u.Host ≠ [] := by simp [hH]
    have hform : slashDriveForm (str "/" ++ [a, 58] ++ u.Path) := by
      simp [slashDriveForm, str, hletter]
    rw [ToLocalSloppy_eq]
    rw [hH] at hd hne
    simp only [hH, hsup, not_true_eq_false, if_false, hne, hd, if_true, stripped, hform]
    constructor
    · simp [str]
    · simp
      omega

/-- C5, on the URL with host `c:` and path `/windows/notepad.exe`. -/
theorem ToLocalSloppy_drive_host_witness :
    ToLocalSloppy { fileURL (str "/windows/notepad.exe") with Host := str "c:" }
        = .ok (str "c:/windows/notepad.exe", none)
      ∧ (str "c:/windows/notepad.exe").head? ≠ some 47 :=
  ToLocalSloppy_drive_host { fileURL (str "/windows/notepad.exe") with Host := str "c:" }
    rfl rfl rfl rfl (by decide) rfl 99 rfl (by decide) rfl

/-- C6: for a URL that passes the first check (scheme `file`, no query, no
fragment, no user information, non-empty path), `ToLocalSloppy` fails with
`ErrRemote` exactly when the host is non-empty and is not a two-byte string
made of an ASCII letter and a colon. -/
theorem ToLocalSloppy_remote_iff (u : URL) (hs : u.Scheme = str "file")
    (hq : u.RawQuery = []) (hf : u.Fragment = []) (hu : u.User = none) (hp : u.Path ≠ []) :
    (∃ p, ToLocalSloppy u = .ok (p, some .ErrRemote)) ↔ (u.Host ≠ [] ∧ ¬ driveHost u.Host) := by
  have hsup : supported u := ⟨hs, hq, hf, hu, hp⟩
  rw [ToLocalSloppy_eq]
  by_cases hh : u.Host = []
  · simp [hsup, hh]
  · by_cases hd : driveHost u.Host <;> simp [hsup, hh, hd]

/-- C6, on the hosts `filesrvr` and `3:`: both are rejected as remote. -/
theorem ToLocalSloppy_remote_iff_witness :
    (∃ p, ToLocalSloppy { fileURL (str "/share/windows/notepad.exe") with Host := str "filesrvr" }
        = .ok (p, some .ErrRemote))
      ∧ (∃ p, ToLocalSloppy { fileURL (str "/windows/notepad.exe") with Host := str "3:" }
        = .ok (p, some .ErrRemote)) :=
  ⟨(ToLocalSloppy_remote_iff
      { fileURL (str "/share/windows/notepad.exe") with Host := str "filesrvr" }
      rfl rfl rfl rfl (by decide)).mpr ⟨by decide, by decide⟩,
   (ToLocalSloppy_remote_iff
      { fileURL (str "/windows/notepad.exe") with Host := str "3:" }
      rfl rfl rfl rfl (by decide)).mpr ⟨by decide, by decide⟩⟩

/-- C7: for a URL with scheme `file`, an empty host, no query, no fragment, no
user information and a non-empty path, `ToLocal` and `ToLocalSloppy` both
succeed; they return the path without its first byte when it has at least
three bytes, a slash, an ASCII letter and a colon, and the path unchanged
otherwise. -/
theorem ToLocal_empty_host_path (u : URL) (hs : u.Scheme = str "file") (hh : u.Host = [])
    (hq : u.RawQuery = []) (hf : u.Fragment = []) (hu : u.User = none) (hp : u.Path ≠ []) :
    (slashDriveForm u.Path →
        ToLocal u = .ok (u.Path.drop 1, none) ∧ ToLocalSloppy u = .ok (u.Path.drop 1, none))
      ∧ (¬ slashDriveForm u.Path →
        ToLocal u = .ok (u.Path, none) ∧ ToLocalSloppy u = .ok (u.Path, none)) := by
  have hsup : supported u := ⟨hs, hq, hf, hu, hp⟩
  rw [ToLocal_eq, ToLocalSloppy_eq]
  constructor
  · intro hform
    simp [hsup, hh, stripped, hform]
  · intro hform
    simp [hsup, hh, stripped, hform]

/-- C7, on the paths `/c:/windows/notepad.exe` (the slash is dropped),
`/3:/windows/notepad.exe` and `/usr/bin/vi` (returned as they are). -/
theorem ToLocal_empty_host_path_witness :
    (ToLocal (fileURL (str "/c:/windows/notepad.exe")) = .ok (str "c:/windows/notepad.exe", none)
        ∧ ToLocalSloppy (fileURL (str "/c:/windows/notepad.exe"))
          = .ok (str "c:/windows/notepad.exe", none))
      ∧ (ToLocal (fileURL (str "/3:/windows/notepad.exe"))
          = .ok (str "/3:/windows/notepad.exe", none)
        ∧ ToLocalSloppy (fileURL (str "/3:/windows/notepad.exe"))
          = .ok (str "/3:/windows/notepad.exe", none))
      ∧ (ToLocal (fileURL (str "/usr/bin/vi")) = .ok (str "/usr/bin/vi", none)
        ∧ ToLocalSloppy (fileURL (str "/usr/bin/vi")) = .ok (str "/usr/bin/vi", none)) :=
  ⟨(ToLocal_empty_host_path (fileURL (str "/c:/windows/notepad.exe"))
      rfl rfl rfl rfl rfl (by decide)).1 (by decide),
   (ToLocal_empty_host_path (fileURL (str "/3:/windows/notepad.exe"))
      rfl rfl rfl rfl rfl (by decide)).2 (by decide),
   (ToLocal_empty_host_path (fileURL (str "/usr/bin/vi"))
      rfl rfl rfl rfl rfl (by decide)).2 (by decide)⟩

/-! ## Construction: `FromLocal` -/

/-- C8: on every path that begins with two slashes, `FromLocal` returns no URL
and fails with `ErrRemote`. -/
theorem FromLocal_double_slash_remote (rest : GoString) :
    FromLocal (str "//" ++ rest) = .ok (none, some .ErrRemote) := by
  show FromLocal (47 :: 47 :: rest) = _
  rw [FromLocal_eq]
  simp

/-- C9: on a path of at least two bytes, `FromLocal` fails with `ErrRelative`
exactly when the path neither begins with a slash nor has the drive-letter
form; and a path that `FromLocal` accepts (a `nil` error) begins with a slash
or with an ASCII letter followed by a colon. -/
theorem FromLocal_relative_iff (path : GoString) :
    (2 ≤ path.length →
      ((∃ v, FromLocal path = .ok (v, some .ErrRelative)) ↔
        (path.head? ≠ some 47 ∧ ¬ driveForm path)))
      ∧ ((∃ v, FromLocal path = .ok (v, none)) → (path.head? = some 47 ∨ driveForm path)) := by
  match path with
  | [] =>
    refine ⟨fun h => absurd h (by simp), fun ⟨v, hv⟩ => ?_⟩
    rw [FromLocal_short [] (by simp)] at hv
    cases hv
  | [a] =>
    refine ⟨fun h => absurd h (by simp), fun ⟨v, hv⟩ => ?_⟩
    rw [FromLocal_short [a] (by simp)] at hv
    cases hv
  | a :: b :: t =>
    rw [FromLocal_eq, driveForm_cons]
    by_cases ha : a = 47
    · subst ha
      by_cases hb : b = 47
      · simp [hb]
      · rcases Parse_result (str "file://" ++ (47 :: b :: t)) with ⟨u, hu⟩ | ⟨r, c, hu⟩ <;>
          simp [hb, hu]
    · by_cases hd : b = 58 ∧ ((65 ≤ a ∧ a ≤ 90) ∨ (97 ≤ a ∧ a ≤ 122))
      · obtain ⟨rfl, hl⟩ := hd
        rcases Parse_result (str "file://" ++ (str "/" ++ (a :: 58 :: t))) with
          ⟨u, hu⟩ | ⟨r, c, hu⟩ <;> simp [ha, hl, hu]
      · simp [ha, hd]

/-- C9, on `3:/windows/notepad.exe` (a digit is no drive letter: `ErrRelative`)
and on `/usr/bin/vi` (accepted, and it begins with a slash). -/
theorem FromLocal_relative_iff_witness :
    (∃ v, FromLocal (str "3:/windows/notepad.exe") = .ok (v, some .ErrRelative))
      ∧ ((str "/usr/bin/vi").head? = some 47 ∨ driveForm (str "/usr/bin/vi")) :=
  ⟨((FromLocal_relative_iff (str "3:/windows/notepad.exe")).1 (by decide)).mpr
      ⟨by decide, by simp [driveForm, str]⟩,
   (FromLocal_relative_iff (str "/usr/bin/vi")).2 ⟨_, rfl⟩⟩

/-! ## Round trips -/

/-- C1, as amended: for every path of at least two bytes that begins with a
slash but not with two, that does not have the slash-prefixed drive form
`/X:...`, and that holds no `#`, `?`, `%` or control byte, `FromLocal`
succeeds with a URL and `ToLocal` of that URL returns exactly the path, with
no error. -/
theorem FromLocal_ToLocal_posix (p : GoString) (hlen : 2 ≤ p.length)
    (h0 : p.get? 0 = some 47) (h1 : p.get? 1 ≠ some 47) (hform : ¬ slashDriveForm p)
    (hplain : plainPath p) :
    ∃ u, FromLocal p = .ok (some u, none) ∧ ToLocal u = .ok (p, none) := by
  match p, hlen, h0, h1, hform, hplain with
  | a :: b :: t, _, h0, h1, hform, hplain =>
    have ha : a = 47 := by simpa using h0
    have hb : b ≠ 47 := by simpa using h1
    subst ha
    refine ⟨fileURL (47 :: b :: t), FromLocal_plain_posix b t hb hplain, ?_⟩
    have hsup : supported (fileURL (47 :: b :: t)) := by
      simp [supported, fileURL]
    have hhost : (fileURL (47 :: b :: t)).Host = [] := rfl
    have hpath : (fileURL (47 :: b :: t)).Path = 47 :: b :: t := rfl
    rw [ToLocal_eq]
    simp [hsup, hhost, hpath, stripped, hform]

/-- C1 as amended, on `/usr/bin/vi`. -/
theorem FromLocal_ToLocal_posix_witness :
    ∃ u, FromLocal (str "/usr/bin/vi") = .ok (some u, none)
      ∧ ToLocal u = .ok (str "/usr/bin/vi", none) :=
  FromLocal_ToLocal_posix (str "/usr/bin/vi") (by decide) (by decide) (by decide) (by decide)
    (by decide)

/-- C1 as stated fails. Each of these paths begins with a slash, and:
`//server/share/file` is refused with `ErrRemote`; `/c:/x` comes back from the
round trip as `c:/x`; `/` makes `FromLocal` panic on `path[:2]`; `/a#b` gives a
URL with path `/a` and fragment `b`, and `/a?b` one with path `/a` and query
`b`, both of which `ToLocal` refuses with `ErrUnsupported`; `/a%20b` comes
back as `/a b`; and the path `/a`, tab, `b` is refused by `Parse` for its
control byte. -/
theorem FromLocal_ToLocal_posix_counterexample :
    ((str "//server/share/file").head? = some 47
        ∧ FromLocal (str "//server/share/file") = .ok (none, some .ErrRemote))
      ∧ ((str "/c:/x").head? = some 47
        ∧ FromLocal (str "/c:/x") = .ok (some (fileURL (str "/c:/x")), none)
        ∧ ToLocal (fileURL (str "/c:/x")) = .ok (str "c:/x", none)
        ∧ str "c:/x" ≠ str "/c:/x")
      ∧ ((str "/").head? = some 47
        ∧ FromLocal (str "/") = .error .sliceBoundsOutOfRange)
      ∧ ((str "/a#b").head? = some 47
        ∧ FromLocal (str "/a#b")
          = .ok (some { fileURL (str "/a") with Fragment := str "b" }, none)
        ∧ ToLocal { fileURL (str "/a") with Fragment := str "b" }
          = .ok ([], some .ErrUnsupported))
      ∧ ((str "/a?b").head? = some 47
        ∧ FromLocal (str "/a?b")
          = .ok (some { fileURL (str "/a") with RawQuery := str "b" }, none)
        ∧ ToLocal { fileURL (str "/a") with RawQuery := str "b" }
          = .ok ([], some .ErrUnsupported))
      ∧ ((str "/a%20b").head? = some 47
        ∧ FromLocal (str "/a%20b") = .ok (some (fileURL (str "/a b")), none)
        ∧ ToLocal (fileURL (str "/a b")) = .ok (str "/a b", none)
        ∧ str "/a b" ≠ str "/a%20b")
      ∧ (([47, 97, 9, 98] : GoString).head? = some 47
        ∧ FromLocal [47, 97, 9, 98]
          = .ok (none, some (.urlError (str "parse") (str "file://" ++ [47, 97, 9, 98])
              .invalidControlCharacter))) := by
  refine ⟨⟨rfl, rfl⟩, ⟨rfl, rfl, rfl, by decide⟩, ⟨rfl, rfl⟩, ⟨rfl, rfl, rfl⟩, ⟨rfl, rfl, rfl⟩,
    ⟨rfl, rfl, rfl, by decide⟩, ⟨rfl, rfl⟩⟩

/-- C2 fails on the code. The path `c:/a#b` has the drive-letter form;
`FromLocal` hands `file:///c:/a#b` to `Parse`, which cuts the text at `#`: the
URL has path `/c:/a` and fragment `b`, and `ToLocal` refuses it with
`ErrUnsupported` where the round trip should give `c:/a#b` back. -/
theorem FromLocal_ToLocal_drive_fragment :
    driveForm (str "c:/a#b")
      ∧ FromLocal (str "c:/a#b")
        = .ok (some { fileURL (str "/c:/a") with Fragment := str "b" }, none)
      ∧ ToLocal { fileURL (str "/c:/a") with Fragment := str "b" }
        = .ok ([], some .ErrUnsupported) :=
  ⟨by simp [driveForm, str], rfl, rfl⟩

/-- C10 fails on the code. The path `/tmp/a?b` begins with one slash, and the
URL `FromLocal` returns has path `/tmp/a` and query `b`, not the input path;
the path `/100%.txt` begins with one slash, and `FromLocal` returns no URL but
the escape error of `Parse`. -/
theorem FromLocal_query_and_percent :
    (FromLocal (str "/tmp/a?b")
        = .ok (some { fileURL (str "/tmp/a") with RawQuery := str "b" }, none)
      ∧ str "/tmp/a" ≠ str "/tmp/a?b")
      ∧ FromLocal (str "/100%.txt")
        = .ok (none, some (.urlError (str "parse") (str "file:///100%.txt")
            (.escapeError (str "%.t")))) :=
  ⟨⟨rfl, by decide⟩, rfl⟩

/-! ## Panics, error kinds and the two extraction variants -/

/-- C11 fails on the code. On a path of one byte, whatever the byte, the slice
`path[:2]` is out of range and `FromLocal` panics, returning neither a URL nor
an error; so it does on `/` and on `a`. The guard `len(path) >= 2` of the
drive-letter test comes after the slice and cannot help. -/
theorem FromLocal_one_byte_panics :
    (∀ c : Nat, FromLocal [c] = .error .sliceBoundsOutOfRange)
      ∧ FromLocal (str "/") = .error .sliceBoundsOutOfRange
      ∧ FromLocal (str "a") = .error .sliceBoundsOutOfRange :=
  ⟨fun c => FromLocal_short [c] (by simp), rfl, rfl⟩

/-- C12, as amended: for every URL whose query or fragment is non-empty,
`ToLocalSloppy` fails with `ErrUnsupported` whatever the host is; `ToLocal`
fails with `ErrUnsupported` when the host is empty, and with `ErrRemote` when
the host is not empty. -/
theorem query_or_fragment_unsupported (u : URL) (h : u.RawQuery ≠ [] ∨ u.Fragment ≠ []) :
    ToLocalSloppy u = .ok ([], some .ErrUnsupported)
      ∧ (u.Host = [] → ToLocal u = .ok ([], some .ErrUnsupported))
      ∧ (u.Host ≠ [] → ToLocal u = .ok ([], some .ErrRemote)) := by
  have hs : ¬ supported u := by
    intro hsup
    rcases h with hq | hf
    · exact hq hsup.2.1
    · exact hf hsup.2.2.1
  rw [ToLocal_eq, ToLocalSloppy_eq]
  refine ⟨by simp [hs], fun hh => by simp [hs, hh], fun hh => by simp [hh]⟩

/-- C12 as amended, on `file:///share?x` (empty host) and on
`file://filesrvr/share?x`. -/
theorem query_or_fragment_unsupported_witness :
    ToLocalSloppy { fileURL (str "/share") with Host := str "filesrvr", RawQuery := str "x" }
        = .ok ([], some .ErrUnsupported)
      ∧ ToLocal { fileURL (str "/share") with RawQuery := str "x" }
        = .ok ([], some .ErrUnsupported) :=
  ⟨(query_or_fragment_unsupported
      { fileURL (str "/share") with Host := str "filesrvr", RawQuery := str "x" }
      (Or.inl (by decide))).1,
   (query_or_fragment_unsupported { fileURL (str "/share") with RawQuery := str "x" }
      (Or.inl (by decide))).2.1 rfl⟩

/-- C12 as stated fails: the URL `file://filesrvr/share?x` has a non-empty
query, and `ToLocal` fails on it with `ErrRemote`, not with `ErrUnsupported`;
so it does on `file://c:/share#f`, with a fragment and a drive-letter host. -/
theorem query_or_fragment_unsupported_counterexample :
    (({ fileURL (str "/share") with Host := str "filesrvr", RawQuery := str "x" } : URL).RawQuery
          ≠ []
        ∧ ToLocal { fileURL (str "/share") with Host := str "filesrvr", RawQuery := str "x" }
          = .ok ([], some .ErrRemote))
      ∧ (({ fileURL (str "/share") with Host := str "c:", Fragment := str "f" } : URL).Fragment
          ≠ []
        ∧ ToLocal { fileURL (str "/share") with Host := str "c:", Fragment := str "f" }
          = .ok ([], some .ErrRemote)) :=
  ⟨⟨by decide, rfl⟩, ⟨by decide, rfl⟩⟩

/-- C13: for every URL with an empty host, `ToLocal` and `ToLocalSloppy` return
the same result; and for every URL, whenever `ToLocal` succeeds with a path,
`ToLocalSloppy` succeeds with the same path. -/
theorem ToLocal_eq_ToLocalSloppy (u : URL) :
    (u.Host = [] → ToLocal u = ToLocalSloppy u)
      ∧ (∀ p, ToLocal u = .ok (p, none) → ToLocalSloppy u = .ok (p, none)) := by
  have h1 : u.Host = [] → ToLocal u = ToLocalSloppy u := by
    intro hh
    unfold ToLocal
    simp [hh]
  refine ⟨h1, fun p hp => ?_⟩
  by_cases hh : u.Host = []
  · rw [← h1 hh]
    exact hp
  · rw [ToLocal_eq] at hp
    simp [hh] at hp

/-- C13, on `file:///c:/windows/notepad.exe`: both give `c:/windows/notepad.exe`. -/
theorem ToLocal_eq_ToLocalSloppy_witness :
    ToLocal (fileURL (str "/c:/windows/notepad.exe"))
        = ToLocalSloppy (fileURL (str "/c:/windows/notepad.exe"))
      ∧ ToLocalSloppy (fileURL (str "/c:/windows/notepad.exe"))
        = .ok (str "c:/windows/notepad.exe", none) :=
  ⟨(ToLocal_eq_ToLocalSloppy (fileURL (str "/c:/windows/notepad.exe"))).1 rfl,
   (ToLocal_eq_ToLocalSloppy (fileURL (str "/c:/windows/notepad.exe"))).2
      (str "c:/windows/notepad.exe") rfl⟩

/-- C14 fails on the code. On `/a%zz` and on the path `/a`, newline, `b`, both
of which begin with one slash, `FromLocal` fails with the `*url.Error` that
`Parse` returns (an invalid escape, a control byte), which is neither
`ErrRelative` nor `ErrRemote`. -/
theorem FromLocal_returns_parser_error :
    (FromLocal (str "/a%zz")
        = .ok (none, some (.urlError (str "parse") (str "file:///a%zz")
            (.escapeError (str "%zz"))))
      ∧ GoError.urlError (str "parse") (str "file:///a%zz") (.escapeError (str "%zz"))
          ≠ .ErrRelative
      ∧ GoError.urlError (str "parse") (str "file:///a%zz") (.escapeError (str "%zz"))
          ≠ .ErrRemote)
      ∧ FromLocal [47, 97, 10, 98]
        = .ok (none, some (.urlError (str "parse") (str "file://" ++ [47, 97, 10, 98])
            .invalidControlCharacter)) :=
  ⟨⟨rfl, by decide, by decide⟩, rfl⟩

/-- C15 fails on the code. The URL with scheme `file`, no host, query, fragment
or user, and the relative path `foo/bar` is not refused: `ToLocal` and
`ToLocalSloppy` both return `foo/bar` with a `nil` error, where the comment on
`ErrRelative` says it is returned for relative URLs. -/
theorem relative_URL_accepted :
    (str "foo/bar").head? ≠ some 47
      ∧ ToLocal (fileURL (str "foo/bar")) = .ok (str "foo/bar", none)
      ∧ ToLocalSloppy (fileURL (str "foo/bar")) = .ok (str "foo/bar", none) :=
  ⟨by decide, rfl, rfl⟩

/-- C16: for every URL whose scheme is not `file` and whose host is not empty,
`ToLocal` fails with `ErrRemote` (the host check comes first) and
`ToLocalSloppy` fails with `ErrUnsupported` (the scheme check comes first). -/
theorem nonfile_scheme_with_host (u : URL) (hs : u.Scheme ≠ str "file") (hh : u.Host ≠ []) :
    ToLocal u = .ok ([], some .ErrRemote) ∧ ToLocalSloppy u = .ok ([], some .ErrUnsupported) := by
  have hsup : ¬ supported u := fun h => hs h.1
  rw [ToLocal_eq, ToLocalSloppy_eq]
  simp [hsup, hh]

/-- C16, on `smb://filesrvr/share/windows/notepad.exe`. -/
theorem nonfile_scheme_with_host_witness :
    ToLocal { fileURL (str "/share/windows/notepad.exe") with
        Scheme := str "smb", Host := str "filesrvr" } = .ok ([], some .ErrRemote)
      ∧ ToLocalSloppy { fileURL (str "/share/windows/notepad.exe") with
        Scheme := str "smb", Host := str "filesrvr" } = .ok ([], some .ErrUnsupported) :=
  nonfile_scheme_with_host
    { fileURL (str "/share/windows/notepad.exe") with Scheme := str "smb", Host := str "filesrvr" }
    (by decide) (by decide)

/-- C17: for every URL, `ToLocal` and `ToLocalSloppy` each return a path with
no error, or the empty path with `ErrRemote`, or the empty path with
`ErrUnsupported`; neither panics and neither ever fails with `ErrRelative`. -/
theorem extraction_outcomes (u : URL) :
    ((∃ p, ToLocal u = .ok (p, none)) ∨ ToLocal u = .ok ([], some .ErrRemote)
        ∨ ToLocal u = .ok ([], some .ErrUnsupported))
      ∧ ((∃ p, ToLocalSloppy u = .ok (p, none)) ∨ ToLocalSloppy u = .ok ([], some .ErrRemote)
        ∨ ToLocalSloppy u = .ok ([], some .ErrUnsupported))
      ∧ (∀ p, ToLocal u ≠ .ok (p, some .ErrRelative))
      ∧ (∀ p, ToLocalSloppy u ≠ .ok (p, some .ErrRelative)) := by
  rw [ToLocal_eq, ToLocalSloppy_eq]
  by_cases hs : supported u <;> by_cases hh : u.Host = [] <;> by_cases hd : driveHost u.Host <;>
    simp [hs, hh, hd]

/-- C18: whenever `ToLocalSloppy` or `ToLocal` succeeds, the path it returns is
not empty and does not have the slash-prefixed drive form (at least three
bytes, a slash, an ASCII letter, a colon). -/
theorem extracted_path_normal_form (u : URL) (p : GoString)
    (h : ToLocalSloppy u = .ok (p, none) ∨ ToLocal u = .ok (p, none)) :
    p ≠ [] ∧ ¬ slashDriveForm p := by
  have hsloppy : ToLocalSloppy u = .ok (p, none) := by
    rcases h with h | h
    · exact h
    · exact (ToLocalSloppy_of_ToLocal u p h)
  rw [ToLocalSloppy_eq] at hsloppy
  by_cases hs : supported u
  · by_cases hh : u.Host = []
    · simp [hs, hh] at hsloppy
      rw [← hsloppy]
      exact stripped_normal u.Path hs.2.2.2.2
    · by_cases hd : driveHost u.Host
      · simp [hs, hh, hd] at hsloppy
        rw [← hsloppy]
        exact stripped_normal _ (by simp [str])
      · simp [hs, hh, hd] at hsloppy
  · simp [hs] at hsloppy

/-- C18, on `file:///c:/x`: the path returned is `c:/x`. -/
theorem extracted_path_normal_form_witness :
    str "c:/x" ≠ [] ∧ ¬ slashDriveForm (str "c:/x") :=
  extracted_path_normal_form (fileURL (str "/c:/x")) (str "c:/x") (Or.inl rfl)

/-- C19: for every URL with scheme `file`, an empty host, no query, no
fragment, no user information and a path of at least two bytes that begins
with a slash but not with two, `ToLocal` returns a path `q` with no error, and
`FromLocal q` does not panic and returns what `Parse` returns on `file://`
followed by the path of the URL; in particular it fails neither with
`ErrRemote` nor with `ErrRelative`. -/
theorem ToLocal_FromLocal_path (u : URL) (hs : u.Scheme = str "file") (hh : u.Host = [])
    (hq : u.RawQuery = []) (hf : u.Fragment = []) (hu : u.User = none)
    (hlen : 2 ≤ u.Path.length) (h0 : u.Path.get? 0 = some 47) (h1 : u.Path.get? 1 ≠ some 47) :
    ∃ q, ToLocal u = .ok (q, none)
      ∧ FromLocal q = .ok (Parse (str "file://" ++ u.Path))
      ∧ (∀ v, FromLocal q ≠ .ok (v, some .ErrRemote))
      ∧ (∀ v, FromLocal q ≠ .ok (v, some .ErrRelative)) := by
  have hne : u.Path ≠ [] := by
    intro h
    rw [h] at hlen
    simp at hlen
  have hsup : supported u := ⟨hs, hq, hf, hu, hne⟩
  have hfrom : FromLocal (stripped u.Path) = .ok (Parse (str "file://" ++ u.Path)) := by
    match hP : u.Path, hlen, h0, h1 with
    | a :: b :: t, _, h0, h1 =>
      have ha : a = 47 := by simpa using h0
      have hb : b ≠ 47 := by simpa using h1
      subst ha
      unfold stripped
      by_cases hform : slashDriveForm (47 :: b :: t)
      · rw [if_pos hform]
        match t, hform with
        | d :: t2, hform =>
          obtain ⟨_, _, ⟨x, hx, hl⟩, h2⟩ := hform
          have hxb : b = x := by simpa using hx
          have hd : d = 58 := by simpa using h2
          subst hxb hd
          have hl2 : (65 ≤ b ∧ b ≤ 90) ∨ (97 ≤ b ∧ b ≤ 122) := by
            simpa [isDriveLetter] using hl
          show FromLocal (b :: 58 :: t2) = _
          rw [FromLocal_eq]
          simp [hb, hl2, str]
      · rw [if_neg hform, FromLocal_eq]
        simp [hb]
  refine ⟨stripped u.Path, ?_, hfrom, ?_, ?_⟩
  · rw [ToLocal_eq]
    simp [hsup, hh]
  · intro v hv
    rw [hfrom] at hv
    rcases Parse_result (str "file://" ++ u.Path) with ⟨w, hw⟩ | ⟨r, c, hw⟩ <;>
      rw [hw] at hv <;> simp at hv
  · intro v hv
    rw [hfrom] at hv
    rcases Parse_result (str "file://" ++ u.Path) with ⟨w, hw⟩ | ⟨r, c, hw⟩ <;>
      rw [hw] at hv <;> simp at hv

/-- C19, on `file:///c:/windows/notepad.exe`: `ToLocal` gives
`c:/windows/notepad.exe`, and `FromLocal` of that is `Parse` of
`file:///c:/windows/notepad.exe`. -/
theorem ToLocal_FromLocal_path_witness :
    ∃ q, ToLocal (fileURL (str "/c:/windows/notepad.exe")) = .ok (q, none)
      ∧ FromLocal q = .ok (Parse (str "file://" ++ str "/c:/windows/notepad.exe"))
      ∧ (∀ v, FromLocal q ≠ .ok (v, some .ErrRemote))
      ∧ (∀ v, FromLocal q ≠ .ok (v, some .ErrRelative)) :=
  ToLocal_FromLocal_path (fileURL (str "/c:/windows/notepad.exe")) rfl rfl rfl rfl rfl
    (by decide) (by decide) (by decide)

end Fileurl
